import Mathlib

/-!
Shallow embedding of the XLA GPU executable
(tensorflow/compiler/xla/service/gpu/gpu_executable.h).

The header declares the data model (ConstantInfo, OutputInfo, Params, the
two-variant thunks-or-BEF program representation, and the per-device
module/constant caches) together with the operations ExecuteAsyncOnStream,
ResolveConstantGlobals, CheckCompatibilityWithServiceExecutableRunOptions,
GenerateBufferAllocations, BufferForAllocation and ExecuteThunks.  The
bodies of those operations live in gpu_executable.cc, which is not part of
this repository snapshot, so every operation below is modelled from the
specification's description of its algorithm and is marked as such in its
doc comment.  The data model is translated from the header directly.
-/

namespace XlaGpu

/-- A device memory region: base address and byte size
(models se::DeviceMemoryBase). -/
structure DeviceMemoryBase where
  addr : Nat
  size : Nat
  deriving DecidableEq, Repr

/-- The GPU version used for the compute-capability check: either Nvidia's
major/minor compute capability or AMD's ISA version (models the GpuVersion
alternatives described at the CheckCompatibility declaration). -/
inductive GpuVersion
  | cuda (major minor : Nat)
  | rocm (isa_version : Nat)
  deriving DecidableEq, Repr

/-- Model of GpuExecutable::ConstantInfo from the header: a named constant
blob together with the index of the allocation it backs. -/
structure ConstantInfo where
  symbol_name : String
  content : List Nat
  allocation_index : Int := -1
  deriving DecidableEq, Repr

/-- Modelled from the spec: the alias kind of an input/output alias
(HloInputOutputAliasConfig::Alias is declared in a header outside this
snapshot): may-alias versus must-alias. -/
inductive AliasKind
  | mayAlias
  | mustAlias
  deriving DecidableEq, Repr

/-- Modelled from the spec: an alias relationship from an output to a
specific entry parameter (HloInputOutputAliasConfig::Alias, outside this
snapshot). -/
structure InputOutputAlias where
  parameter_number : Nat
  kind : AliasKind
  deriving DecidableEq, Repr

/-- Model of GpuExecutable::OutputInfo from the header: the allocation
index of the output, whether the output is passed through from a
parameter, and an optional alias relationship to a parameter. -/
structure OutputInfo where
  allocation_index : Int
  passthrough : Bool := false
  alias_config : Option InputOutputAlias := none
  deriving DecidableEq, Repr

/-- Modelled from the spec: one entry of the allocation table
(BufferAllocation is declared in buffer_assignment.h, outside this
snapshot): a stable index, a byte size, and flags saying whether the
allocation is an entry input, an entry output, a constant or a temporary;
entry inputs record which parameter they correspond to. -/
structure BufferAllocation where
  index : Int
  size : Nat
  is_entry_computation_parameter : Bool := false
  parameter_number : Nat := 0
  is_constant : Bool := false
  maybe_live_out : Bool := false
  is_temp : Bool := false
  deriving DecidableEq, Repr

/-- Modelled from the spec: one schedulable unit of device work (Thunk is
declared in thunk.h, outside this snapshot): an identifier, the stream the
unit is assigned to, and the identifiers of the producer units it depends
on, listed by the schedule in topological order. -/
structure Thunk where
  id : Nat
  stream : Nat
  deps : List Nat := []
  deriving DecidableEq, Repr

/-- The two-variant program representation held by a GpuExecutable
(the header's absl variant field thunks_or_bef): either a unit schedule
of thunks or a whole-program BEF binary blob. -/
inductive ThunksOrBef
  | thunks (schedule : List Thunk)
  | bef (buffer : List Nat)
  deriving DecidableEq, Repr

/-- Model of the GpuExecutable object state, following the member list of
the header: the LLVM IR string (settable before execution), the compiled
text and binary, the GPU version, the program representation, the
allocation table, the constants, the output-info map, and the per-device
module-handle and constant-map caches used by ResolveConstantGlobals. -/
structure GpuExecutable where
  ir_module_string : String := ""
  text : String := ""
  binary : List Nat := []
  gpu_version : GpuVersion
  thunks_or_bef : ThunksOrBef
  module_name : String := ""
  output_shape : List Nat := []
  allocations : List BufferAllocation := []
  constants : List ConstantInfo := []
  output_info : List (List Nat × OutputInfo) := []
  module_handles : List (Nat × Nat) := []
  module_globals : List (Nat × List (Int × DeviceMemoryBase)) := []
  deriving DecidableEq, Repr

/-- The set_ir_module_string member, defined inline in the header: stores
the given string into the ir_module_string member and touches nothing
else. -/
def set_ir_module_string (e : GpuExecutable) (s : String) : GpuExecutable :=
  { e with ir_module_string := s }

/-- The GetAllocations accessor, defined inline in the header. -/
def GetAllocations (e : GpuExecutable) : List BufferAllocation :=
  e.allocations

/-- Modelled from the spec: SizeOfGeneratedCodeInBytes (implemented in
gpu_executable.cc, outside this snapshot) reports the size of the
generated code as an informational query over the stored binary. -/
def SizeOfGeneratedCodeInBytes (e : GpuExecutable) : Int :=
  e.binary.length

/-- Modelled from the spec: the error taxonomy of the design's section 7:
device-compatibility, constant-resolution, allocation, aliasing-contract
and launch errors, plus a missing-argument caller error. -/
inductive Err
  | deviceCompatibility
  | constantResolution
  | allocation
  | aliasingContract
  | launchFailure (unit : Nat)
  | missingArgument
  deriving DecidableEq, Repr

/-- Observable runtime events, used to state the temporal claims:
allocator calls, temporary releases, per-device constant loads, unit
launches, cross-stream waits and the optional final host block. -/
inductive Event
  | allocCall (addr size : Nat)
  | freeCall (addr : Nat)
  | constantLoad (device_ordinal : Nat)
  | launch (unit stream : Nat)
  | streamWait (producer stream : Nat)
  | hostBlock
  deriving DecidableEq, Repr

/-- Whether an event is an allocator call. -/
def Event.isAllocCall : Event → Bool
  | .allocCall _ _ => true
  | _ => false

/-- Whether an event is a device launch. -/
def Event.isLaunch : Event → Bool
  | .launch _ _ => true
  | _ => false

/-- First-match association lookup, the model of map lookup for the
binding, the caches and the symbol table. -/
def lookupKey {α β : Type} [DecidableEq α] (k : α) : List (α × β) → Option β
  | [] => none
  | p :: rest => if p.1 = k then some p.2 else lookupKey k rest

/-- Number of constant-load events for a given device in a trace. -/
def loadCount (dev : Nat) (tr : List Event) : Nat :=
  (tr.filter (fun ev => decide (ev = Event.constantLoad dev))).length

/-- Addresses handed out by allocator calls in a trace, in call order. -/
def allocAddrs (tr : List Event) : List Nat :=
  tr.filterMap (fun ev =>
    match ev with
    | .allocCall addr _ => some addr
    | _ => none)

/-- Addresses released by free calls in a trace, in call order. -/
def freeAddrs (tr : List Event) : List Nat :=
  tr.filterMap (fun ev =>
    match ev with
    | .freeCall addr => some addr
    | _ => none)

/-- Units launched in a trace, in launch order. -/
def launchedUnits (tr : List Event) : List Nat :=
  tr.filterMap (fun ev =>
    match ev with
    | .launch u _ => some u
    | _ => none)

/-- Units launched on one particular stream in a trace, in launch order. -/
def launchesOnStream (s : Nat) (tr : List Event) : List Nat :=
  tr.filterMap (fun ev =>
    match ev with
    | .launch u s2 => if s2 = s then some u else none
    | _ => none)

/-- Modelled from the spec: the per-invocation run context
(ServiceExecutableRunOptions, outside this snapshot): the device's
version, its ordinal identity, and whether the host blocks until the
stream completes. -/
structure RunOptions where
  gpu_version : GpuVersion
  device_ordinal : Nat
  block_host_until_done : Bool := true
  deriving DecidableEq, Repr

/-- Modelled from the spec: a caller-supplied input buffer, either
borrowed or donated with ownership transfer (ExecutionInput, outside this
snapshot). -/
structure ExecutionInput where
  mem : DeviceMemoryBase
  donated : Bool := false
  deriving DecidableEq, Repr

/-- Ownership of a returned output buffer: transferred from a donated
input, or freshly produced and allocator-owned. -/
inductive Ownership
  | donatedFromInput (parameter_number : Nat)
  | allocatorOwned
  deriving DecidableEq, Repr

/-- One output buffer of the assembled result. -/
structure OutputBuffer where
  mem : DeviceMemoryBase
  ownership : Ownership
  deriving DecidableEq, Repr

/-- The assembled invocation result: an output buffer per output path. -/
abbrev ExecutionOutput := List (List Nat × OutputBuffer)

/-- Modelled from the spec: the device memory allocator
(se::DeviceMemoryAllocator, outside this snapshot): hands out fresh
regions at strictly increasing addresses and reports out-of-memory
whenever its can_alloc predicate rejects the requested size. -/
structure Allocator where
  next_addr : Nat
  can_alloc : Nat → Bool

/-- One allocator request: fresh region of the given size, or an
out-of-memory allocation error. -/
def Allocator.allocate (a : Allocator) (size : Nat) :
    Except Err (DeviceMemoryBase × Allocator) :=
  if a.can_alloc size then
    .ok (⟨a.next_addr, size⟩, ⟨a.next_addr + size + 1, a.can_alloc⟩)
  else
    .error .allocation

/-- Modelled from the spec: the result of loading the compiled binary onto
a device (a module handle as in se::ScopedModuleHandle plus the module's
symbol table of device addresses). -/
structure ModuleLoad where
  handle : Nat
  symbols : List (String × Nat)
  deriving DecidableEq, Repr

/-- Modelled from the spec: CheckCompatibilityWithServiceExecutableRunOptions
(implemented in gpu_executable.cc, outside this snapshot): the run
context's device version must equal the compiled gpu_version; a mismatch
is a fatal device-compatibility error. -/
def CheckCompatibilityWithServiceExecutableRunOptions
    (e : GpuExecutable) (ro : RunOptions) : Except Err Unit :=
  if ro.gpu_version = e.gpu_version then .ok () else .error .deviceCompatibility

/-- Modelled from the spec: decoding the loaded module's symbol table into
the allocation-index-to-device-address map: every constant that backs an
allocation must resolve to a symbol address; a missing symbol is a
constant-resolution failure. -/
def buildGlobalsMap : List ConstantInfo → List (String × Nat) →
    Except Err (List (Int × DeviceMemoryBase))
  | [], _ => .ok []
  | c :: rest, syms =>
    if c.allocation_index < 0 then buildGlobalsMap rest syms
    else
      match lookupKey c.symbol_name syms with
      | none => .error .constantResolution
      | some addr =>
        match buildGlobalsMap rest syms with
        | .error er => .error er
        | .ok m => .ok ((c.allocation_index, ⟨addr, c.content.length⟩) :: m)

/-- Modelled from the spec: ResolveConstantGlobals (implemented in
gpu_executable.cc, outside this snapshot).  Under the module-handle lock:
look the device up in the per-device cache; on a hit return the cached map
without re-loading; on a miss load the compiled binary onto that device
(the load attempt is an observable event, and every failure leaves the
caches untouched), decode its symbol table into the index-to-address map,
and insert the handle and the map into the caches together.  Returns the
map, the executable's new cache state, and the emitted events. -/
def ResolveConstantGlobals (e : GpuExecutable)
    (loadFn : Nat → Except Err ModuleLoad) (dev : Nat) :
    Except Err (List (Int × DeviceMemoryBase)) × GpuExecutable × List Event :=
  match lookupKey dev e.module_globals with
  | some m => (.ok m, e, [])
  | none =>
    match loadFn dev with
    | .error er => (.error er, e, [Event.constantLoad dev])
    | .ok ml =>
      match buildGlobalsMap e.constants ml.symbols with
      | .error er => (.error er, e, [Event.constantLoad dev])
      | .ok m =>
        (.ok m,
         { e with
            module_handles := (dev, ml.handle) :: e.module_handles,
            module_globals := (dev, m) :: e.module_globals },
         [Event.constantLoad dev])

/-- Parameters for which some output descriptor declares a mandatory
(must-alias) aliasing relationship. -/
def mustAliasParams (oinfo : List (List Nat × OutputInfo)) : List Nat :=
  oinfo.filterMap (fun p =>
    match p.2.alias_config with
    | some al =>
      if al.kind = AliasKind.mustAlias then some al.parameter_number else none
    | none => none)

/-- The alias relationship, if any, that an output descriptor declares for
the allocation with the given index. -/
def aliasForAllocation (oinfo : List (List Nat × OutputInfo)) (idx : Int) :
    Option InputOutputAlias :=
  match oinfo.find? (fun p =>
      p.2.allocation_index == idx && p.2.alias_config.isSome) with
  | some p => p.2.alias_config
  | none => none

/-- A fresh allocator request for one allocation, recording the allocator
call event and the address of the temporary for later release. -/
def allocateFresh (size : Nat) (alc : Allocator) :
    Except Err (DeviceMemoryBase × Allocator × Option Nat × List Event) :=
  match alc.allocate size with
  | .error er => .error er
  | .ok (m, alc2) => .ok (m, alc2, some m.addr, [Event.allocCall m.addr size])

/-- Modelled from the spec: BufferForAllocation (implemented in
gpu_executable.cc, outside this snapshot).  Resolves one allocation, in
the order of the design's section 4.3: constants come from the resolved
globals map (fatal if absent); entry inputs take the caller-supplied
buffer, and a mandatory (must-alias) donation the caller did not honour is
a fatal aliasing-contract violation; outputs aliased to a donated
parameter reuse that parameter's memory; everything else is requested from
the allocator, whose failure is fatal.  Returns the resolved region, the
allocator state, the address of the fresh temporary if one was allocated,
and the emitted events. -/
def BufferForAllocation (args : List ExecutionInput)
    (globals : List (Int × DeviceMemoryBase))
    (oinfo : List (List Nat × OutputInfo))
    (a : BufferAllocation) (alc : Allocator) :
    Except Err (DeviceMemoryBase × Allocator × Option Nat × List Event) :=
  if a.is_constant then
    match lookupKey a.index globals with
    | some m => .ok (m, alc, none, [])
    | none => .error .constantResolution
  else if a.is_entry_computation_parameter then
    match args.get? a.parameter_number with
    | none => .error .missingArgument
    | some inp =>
      if a.parameter_number ∈ mustAliasParams oinfo ∧ inp.donated = false then
        .error .aliasingContract
      else
        .ok (inp.mem, alc, none, [])
  else
    match aliasForAllocation oinfo a.index with
    | some al =>
      match args.get? al.parameter_number with
      | none => .error .missingArgument
      | some inp =>
        if inp.donated then .ok (inp.mem, alc, none, [])
        else if al.kind = AliasKind.mustAlias then .error .aliasingContract
        else allocateFresh a.size alc
    | none => allocateFresh a.size alc

/-- Modelled from the spec: the binder loop inside
GenerateBufferAllocations: resolves allocations in index order,
accumulating the binding, the addresses of the temporaries allocated so
far, and the event trace; on a failure it releases every temporary already
allocated during this bind (most recent first) before propagating the
error, so no partial binding is ever returned. -/
def bindAll (args : List ExecutionInput)
    (globals : List (Int × DeviceMemoryBase))
    (oinfo : List (List Nat × OutputInfo)) :
    List BufferAllocation → Allocator → List (Int × DeviceMemoryBase) →
    List Nat → List Event →
    Except Err (List (Int × DeviceMemoryBase)) × List Event
  | [], _, bnd, _, tr => (.ok bnd, tr)
  | a :: rest, alc, bnd, temps, tr =>
    match BufferForAllocation args globals oinfo a alc with
    | .error er => (.error er, tr ++ temps.map Event.freeCall)
    | .ok (m, alc2, tmp, ev) =>
      bindAll args globals oinfo rest alc2 (bnd ++ [(a.index, m)])
        (tmp.elim temps (fun addr => addr :: temps)) (tr ++ ev)

/-- Modelled from the spec: GenerateBufferAllocations (implemented in
gpu_executable.cc, outside this snapshot): runs the binder loop over the
whole allocation table starting from the empty binding. -/
def GenerateBufferAllocations (args : List ExecutionInput)
    (globals : List (Int × DeviceMemoryBase))
    (oinfo : List (List Nat × OutputInfo))
    (allocs : List BufferAllocation) (alc : Allocator) :
    Except Err (List (Int × DeviceMemoryBase)) × List Event :=
  bindAll args globals oinfo allocs alc [] [] []

/-- Cross-stream synchronization events a unit needs before launching: one
stream-wait per producer dependency that runs on a different stream. -/
def thunkWaits (sched : List Thunk) (t : Thunk) : List Event :=
  t.deps.filterMap (fun d =>
    match sched.find? (fun u => u.id == d) with
    | some u => if u.stream = t.stream then none else some (.streamWait d t.stream)
    | none => none)

/-- Modelled from the spec: the issue loop of ExecuteThunks: units are
issued in schedule (topological) order; before a unit launches on its
assigned stream, a stream-wait is enqueued for every producer assigned to
a different stream; a launch error stops issuance immediately and becomes
the terminal result. -/
def runThunks (sched : List Thunk) (launchFn : Nat → Except Err Unit) :
    List Thunk → Except Err Unit × List Event
  | [] => (.ok (), [])
  | t :: rest =>
    let evs := thunkWaits sched t ++ [Event.launch t.id t.stream]
    match launchFn t.id with
    | .error er => (.error er, evs)
    | .ok _ =>
      let r := runThunks sched launchFn rest
      (r.1, evs ++ r.2)

/-- Modelled from the spec: ExecuteThunks (implemented in
gpu_executable.cc, outside this snapshot): runs the issue loop over the
whole unit schedule. -/
def ExecuteThunks (sched : List Thunk) (launchFn : Nat → Except Err Unit) :
    Except Err Unit × List Event :=
  runThunks sched launchFn sched

/-- Modelled from the spec: the whole-program variant launches the BEF
blob as a single opaque unit against the binding; unit identifier 0 on
stream 0 stands for the whole program. -/
def launchBef (_buffer : List Nat) (launchFn : Nat → Except Err Unit) :
    Except Err Unit × List Event :=
  (launchFn 0, [Event.launch 0 0])

/-- The Program Runner boundary: the single place in the execution path
that branches on the two-variant program representation. -/
def runProgram (tb : ThunksOrBef) (launchFn : Nat → Except Err Unit) :
    Except Err Unit × List Event :=
  match tb with
  | .thunks sched => ExecuteThunks sched launchFn
  | .bef buffer => launchBef buffer launchFn

/-- Modelled from the spec: output assembly (step 5 of the entry point):
each output descriptor takes the bound address of its allocation index and
wraps it with the correct ownership: outputs aliased to a donated
parameter transfer that input's ownership to the caller, all other outputs
are allocator-owned and transferred freshly. -/
def assembleOutputs (oinfo : List (List Nat × OutputInfo))
    (bnd : List (Int × DeviceMemoryBase)) (args : List ExecutionInput) :
    ExecutionOutput :=
  oinfo.map (fun p =>
    (p.1,
     { mem := (lookupKey p.2.allocation_index bnd).getD ⟨0, 0⟩,
       ownership :=
         match p.2.alias_config with
         | some al =>
           match args.get? al.parameter_number with
           | some inp =>
             if inp.donated then Ownership.donatedFromInput al.parameter_number
             else Ownership.allocatorOwned
           | none => Ownership.allocatorOwned
         | none => Ownership.allocatorOwned }))

/-- Modelled from the spec: ExecuteAsyncOnStreamImpl (implemented in
gpu_executable.cc, outside this snapshot), the executor entry point:
(1) check device compatibility, where a mismatch fails before anything
else happens; (2) resolve constants for the target device; (3) bind the
buffers; (4) run the program representation; (5) assemble the outputs,
optionally blocking the host until the stream completes.  Returns the
result, the executable's new cache state and the full event trace. -/
def ExecuteAsyncOnStreamImpl (e : GpuExecutable) (ro : RunOptions)
    (args : List ExecutionInput) (alc : Allocator)
    (loadFn : Nat → Except Err ModuleLoad)
    (launchFn : Nat → Except Err Unit) :
    Except Err ExecutionOutput × GpuExecutable × List Event :=
  match CheckCompatibilityWithServiceExecutableRunOptions e ro with
  | .error er => (.error er, e, [])
  | .ok _ =>
    match ResolveConstantGlobals e loadFn ro.device_ordinal with
    | (.error er, e2, tr1) => (.error er, e2, tr1)
    | (.ok globals, e2, tr1) =>
      match GenerateBufferAllocations args globals e2.output_info
          e2.allocations alc with
      | (.error er, tr2) => (.error er, e2, tr1 ++ tr2)
      | (.ok bnd, tr2) =>
        match runProgram e2.thunks_or_bef launchFn with
        | (.error er, tr3) => (.error er, e2, tr1 ++ tr2 ++ tr3)
        | (.ok _, tr3) =>
          (.ok (assembleOutputs e2.output_info bnd args), e2,
           tr1 ++ tr2 ++ tr3 ++
             (if ro.block_host_until_done then [Event.hostBlock] else []))

/-- The events one unit contributes to the issue-loop trace: its
cross-stream waits followed by its own launch. -/
def thunkBlock (sched : List Thunk) (u : Thunk) : List Event :=
  thunkWaits sched u ++ [Event.launch u.id u.stream]

/-- The trace of issuing a list of units when every launch succeeds. -/
def scheduleTrace (sched : List Thunk) : List Thunk → List Event
  | [] => []
  | u :: rest => thunkBlock sched u ++ scheduleTrace sched rest

/-- Modelled from the spec: the module-handle lock is scoped to the whole
cache lookup-or-insert, so concurrent resolve critical sections serialize;
a concurrent execution of resolve calls is modelled as an arbitrary
serialization order of those calls. -/
def resolveSeq (loadFn : Nat → Except Err ModuleLoad) :
    List Nat → GpuExecutable → GpuExecutable × List Event
  | [], e => (e, [])
  | d :: ds, e =>
    let step := ResolveConstantGlobals e loadFn d
    let rest := resolveSeq loadFn ds step.2.1
    (rest.1, step.2.2 ++ rest.2)

/-! Concrete instances used by the witness theorems. -/

def mismatchExe : GpuExecutable :=
  { gpu_version := .cuda 7 0, thunks_or_bef := .thunks [] }

def mismatchRo : RunOptions :=
  { gpu_version := .cuda 8 0, device_ordinal := 0 }

def freeAlloc : Allocator :=
  { next_addr := 100, can_alloc := fun _ => true }

def okLoad : Nat → Except Err ModuleLoad :=
  fun _ => .ok { handle := 1, symbols := [("sym0", 500)] }

def okLaunch : Nat → Except Err Unit :=
  fun _ => .ok ()

def cachedExe : GpuExecutable :=
  { gpu_version := .cuda 7 0, thunks_or_bef := .thunks [],
    constants := [{ symbol_name := "sym0", content := [1, 2, 3, 4],
                    allocation_index := 0 }] }

def tmpAlloc4 : BufferAllocation := { index := 0, size := 4, is_temp := true }

def tmpAlloc8 : BufferAllocation := { index := 1, size := 8, is_temp := true }

def smallAlloc : Allocator :=
  { next_addr := 100, can_alloc := fun s => decide (s ≤ 4) }

def aliasOi : OutputInfo :=
  { allocation_index := 2, passthrough := true,
    alias_config := some ⟨0, AliasKind.mustAlias⟩ }

def aliasOinfo : List (List Nat × OutputInfo) := [([], aliasOi)]

def donatedInp : ExecutionInput := { mem := ⟨4369, 4⟩, donated := true }

def donatedArgs : List ExecutionInput := [donatedInp]

def paramAllocW : BufferAllocation :=
  { index := 0, size := 4, is_entry_computation_parameter := true }

def outAllocW : BufferAllocation := { index := 2, size := 4, maybe_live_out := true }

def donatedBnd : List (Int × DeviceMemoryBase) := [(0, ⟨4369, 4⟩), (2, ⟨4369, 4⟩)]

def badLoad : Nat → Except Err ModuleLoad :=
  fun _ => .error .constantResolution

def thunkX : Thunk := { id := 1, stream := 0 }

def failThunk : Thunk := { id := 2, stream := 0 }

def postThunk : Thunk := { id := 3, stream := 0 }

def failLaunch : Nat → Except Err Unit :=
  fun u => if u = 2 then .error (Err.launchFailure 2) else .ok ()

def failExe : GpuExecutable :=
  { gpu_version := .cuda 7 0,
    thunks_or_bef := .thunks ([thunkX] ++ failThunk :: [postThunk]) }

def matchRo : RunOptions := { gpu_version := .cuda 7 0, device_ordinal := 0 }

def thunkY : Thunk := { id := 2, stream := 1, deps := [1] }

/-! Helper lemmas about lookups, traces and the resolve cache. -/

theorem lookupKey_cons_self {β : Type} (k : Nat) (v : β) (l : List (Nat × β)) :
    lookupKey k ((k, v) :: l) = some v := by
  simp [lookupKey]

theorem resolve_hit (e : GpuExecutable) (f : Nat → Except Err ModuleLoad) (d : Nat)
    (m : List (Int × DeviceMemoryBase)) (h : lookupKey d e.module_globals = some m) :
    ResolveConstantGlobals e f d = (.ok m, e, []) := by
  unfold ResolveConstantGlobals
  rw [h]

theorem resolve_load_error (e : GpuExecutable) (f : Nat → Except Err ModuleLoad)
    (d : Nat) (er : Err) (h0 : lookupKey d e.module_globals = none)
    (h1 : f d = .error er) :
    ResolveConstantGlobals e f d = (.error er, e, [Event.constantLoad d]) := by
  unfold ResolveConstantGlobals
  rw [h0, h1]

theorem resolve_build_error (e : GpuExecutable) (f : Nat → Except Err ModuleLoad)
    (d : Nat) (ml : ModuleLoad) (er : Err)
    (h0 : lookupKey d e.module_globals = none) (h1 : f d = .ok ml)
    (h2 : buildGlobalsMap e.constants ml.symbols = .error er) :
    ResolveConstantGlobals e f d = (.error er, e, [Event.constantLoad d]) := by
  unfold ResolveConstantGlobals
  simp only [h0, h1, h2]

theorem resolve_success (e : GpuExecutable) (f : Nat → Except Err ModuleLoad)
    (d : Nat) (ml : ModuleLoad) (m : List (Int × DeviceMemoryBase))
    (h0 : lookupKey d e.module_globals = none) (h1 : f d = .ok ml)
    (h2 : buildGlobalsMap e.constants ml.symbols = .ok m) :
    ResolveConstantGlobals e f d =
      (.ok m,
       { e with
          module_handles := (d, ml.handle) :: e.module_handles,
          module_globals := (d, m) :: e.module_globals },
       [Event.constantLoad d]) := by
  unfold ResolveConstantGlobals
  simp only [h0, h1, h2]

theorem resolve_fields (e : GpuExecutable) (f : Nat → Except Err ModuleLoad) (d : Nat) :
    (ResolveConstantGlobals e f d).2.1.thunks_or_bef = e.thunks_or_bef ∧
    (ResolveConstantGlobals e f d).2.1.constants = e.constants ∧
    (ResolveConstantGlobals e f d).2.1.allocations = e.allocations ∧
    (ResolveConstantGlobals e f d).2.1.output_info = e.output_info := by
  rcases h : lookupKey d e.module_globals with _ | m
  · rcases hf : f d with er | ml
    · rw [resolve_load_error e f d er h hf]; exact ⟨rfl, rfl, rfl, rfl⟩
    · rcases hb : buildGlobalsMap e.constants ml.symbols with er | m2
      · rw [resolve_build_error e f d ml er h hf hb]; exact ⟨rfl, rfl, rfl, rfl⟩
      · rw [resolve_success e f d ml m2 h hf hb]; exact ⟨rfl, rfl, rfl, rfl⟩
  · rw [resolve_hit e f d m h]; exact ⟨rfl, rfl, rfl, rfl⟩

theorem resolve_lookup_other (e : GpuExecutable) (f : Nat → Except Err ModuleLoad)
    (d d2 : Nat) (hne : d ≠ d2) :
    lookupKey d2 (ResolveConstantGlobals e f d).2.1.module_globals =
      lookupKey d2 e.module_globals := by
  rcases h : lookupKey d e.module_globals with _ | m
  · rcases hf : f d with er | ml
    · rw [resolve_load_error e f d er h hf]
    · rcases hb : buildGlobalsMap e.constants ml.symbols with er | m2
      · rw [resolve_build_error e f d ml er h hf hb]
      · rw [resolve_success e f d ml m2 h hf hb]
        show lookupKey d2 ((d, m2) :: e.module_globals) = lookupKey d2 e.module_globals
        simp [lookupKey, hne]
  · rw [resolve_hit e f d m h]

theorem loadCount_append (d : Nat) (l1 l2 : List Event) :
    loadCount d (l1 ++ l2) = loadCount d l1 + loadCount d l2 := by
  simp [loadCount, List.filter_append]

theorem loadCount_self (d : Nat) : loadCount d [Event.constantLoad d] = 1 := by
  simp [loadCount]

theorem loadCount_other (d d2 : Nat) (h : d2 ≠ d) :
    loadCount d [Event.constantLoad d2] = 0 := by
  simp [loadCount, h]

theorem lookupKey_cons_eq {α β : Type} [DecidableEq α] (k : α) (v : β)
    (l : List (α × β)) : lookupKey k ((k, v) :: l) = some v := by
  simp [lookupKey]

theorem lookupKey_append_left {α β : Type} [DecidableEq α] (k : α) (v : β)
    (l1 l2 : List (α × β)) (h : lookupKey k l1 = some v) :
    lookupKey k (l1 ++ l2) = some v := by
  induction l1 with
  | nil => cases h
  | cons p rest ih =>
    by_cases hp : p.1 = k
    · simp only [lookupKey, hp, if_true] at h
      simp only [List.cons_append, lookupKey, hp, if_true]
      exact h
    · simp only [lookupKey, hp, if_false] at h
      simp only [List.cons_append, lookupKey, hp, if_false]
      exact ih h

theorem lookupKey_append_none {α β : Type} [DecidableEq α] (k : α)
    (l1 l2 : List (α × β)) (h : lookupKey k l1 = none) :
    lookupKey k (l1 ++ l2) = lookupKey k l2 := by
  induction l1 with
  | nil => rfl
  | cons p rest ih =>
    by_cases hp : p.1 = k
    · simp only [lookupKey, hp, if_true] at h; cases h
    · simp only [lookupKey, hp, if_false] at h
      simp only [List.cons_append, lookupKey, hp, if_false]
      exact ih h

theorem lookupKey_append_isSome_left {α β : Type} [DecidableEq α] (k : α)
    (l1 l2 : List (α × β)) (h : (lookupKey k l1).isSome = true) :
    (lookupKey k (l1 ++ l2)).isSome = true := by
  rcases hl : lookupKey k l1 with _ | v
  · rw [hl] at h; cases h
  · rw [lookupKey_append_left k v l1 l2 hl]; rfl

theorem lookupKey_append_singleton_isSome {α β : Type} [DecidableEq α] (k : α)
    (v : β) (l : List (α × β)) :
    (lookupKey k (l ++ [(k, v)])).isSome = true := by
  rcases hl : lookupKey k l with _ | w
  · rw [lookupKey_append_none k l _ hl, lookupKey_cons_eq]; rfl
  · rw [lookupKey_append_left k w l _ hl]; rfl

theorem allocAddrs_append (l1 l2 : List Event) :
    allocAddrs (l1 ++ l2) = allocAddrs l1 ++ allocAddrs l2 := by
  simp [allocAddrs, List.filterMap_append]

theorem freeAddrs_append (l1 l2 : List Event) :
    freeAddrs (l1 ++ l2) = freeAddrs l1 ++ freeAddrs l2 := by
  simp [freeAddrs, List.filterMap_append]

theorem freeAddrs_map_freeCall (temps : List Nat) :
    freeAddrs (temps.map Event.freeCall) = temps := by
  induction temps with
  | nil => rfl
  | cons t ts ih =>
    simp only [List.map_cons, freeAddrs, List.filterMap_cons] at ih ⊢
    rw [ih]

theorem allocAddrs_map_freeCall (temps : List Nat) :
    allocAddrs (temps.map Event.freeCall) = [] := by
  induction temps with
  | nil => rfl
  | cons t ts ih =>
    simp only [List.map_cons, allocAddrs, List.filterMap_cons] at ih ⊢
    exact ih

theorem allocateFresh_shape {size : Nat} {alc : Allocator} {m : DeviceMemoryBase}
    {alc2 : Allocator} {tmp : Option Nat} {ev : List Event}
    (h : allocateFresh size alc = .ok (m, alc2, tmp, ev)) :
    tmp = some m.addr ∧ ev = [Event.allocCall m.addr size] := by
  unfold allocateFresh at h
  rcases ha : alc.allocate size with er | pr
  · rw [ha] at h; cases h
  · rw [ha] at h
    obtain ⟨m1, alc1⟩ := pr
    simp only [Except.ok.injEq, Prod.mk.injEq] at h
    obtain ⟨h1, _, h3, h4⟩ := h
    subst h1
    exact ⟨h3.symm, h4.symm⟩

theorem BufferForAllocation_shape {args : List ExecutionInput}
    {globals : List (Int × DeviceMemoryBase)}
    {oinfo : List (List Nat × OutputInfo)} {a : BufferAllocation}
    {alc : Allocator} {m : DeviceMemoryBase} {alc2 : Allocator}
    {tmp : Option Nat} {ev : List Event}
    (h : BufferForAllocation args globals oinfo a alc = .ok (m, alc2, tmp, ev)) :
    (tmp = none ∧ ev = []) ∨
    (tmp = some m.addr ∧ ev = [Event.allocCall m.addr a.size]) := by
  unfold BufferForAllocation at h
  split at h
  · split at h
    · left
      simp only [Except.ok.injEq, Prod.mk.injEq] at h
      exact ⟨h.2.2.1.symm, h.2.2.2.symm⟩
    · cases h
  · split at h
    · split at h
      · cases h
      · split at h
        · cases h
        · left
          simp only [Except.ok.injEq, Prod.mk.injEq] at h
          exact ⟨h.2.2.1.symm, h.2.2.2.symm⟩
    · split at h
      · split at h
        · cases h
        · split at h
          · left
            simp only [Except.ok.injEq, Prod.mk.injEq] at h
            exact ⟨h.2.2.1.symm, h.2.2.2.symm⟩
          · split at h
            · cases h
            · right; exact allocateFresh_shape h
      · right; exact allocateFresh_shape h

theorem bindAll_extends (args : List ExecutionInput)
    (globals : List (Int × DeviceMemoryBase))
    (oinfo : List (List Nat × OutputInfo)) :
    ∀ (allocs : List BufferAllocation) (alc : Allocator)
      (bnd : List (Int × DeviceMemoryBase)) (temps : List Nat) (tr : List Event)
      (bnd' : List (Int × DeviceMemoryBase)),
      (bindAll args globals oinfo allocs alc bnd temps tr).1 = .ok bnd' →
      ∃ suf, bnd' = bnd ++ suf := by
  intro allocs
  induction allocs with
  | nil =>
    intro alc bnd temps tr bnd' h
    have hb : bnd = bnd' := by simpa [bindAll] using h
    exact ⟨[], by simp [hb]⟩
  | cons a rest ih =>
    intro alc bnd temps tr bnd' h
    unfold bindAll at h
    rcases hb : BufferForAllocation args globals oinfo a alc with er | q
    · rw [hb] at h; simp at h
    · rw [hb] at h
      obtain ⟨m, alc2, tmp, ev⟩ := q
      obtain ⟨suf, hs⟩ := ih alc2 (bnd ++ [(a.index, m)])
        (tmp.elim temps fun addr => addr :: temps) (tr ++ ev) bnd' h
      exact ⟨(a.index, m) :: suf, by rw [hs, List.append_assoc]; rfl⟩

theorem bindAll_ok_complete (args : List ExecutionInput)
    (globals : List (Int × DeviceMemoryBase))
    (oinfo : List (List Nat × OutputInfo)) :
    ∀ (allocs : List BufferAllocation) (alc : Allocator)
      (bnd : List (Int × DeviceMemoryBase)) (temps : List Nat) (tr : List Event)
      (bnd' : List (Int × DeviceMemoryBase)),
      (bindAll args globals oinfo allocs alc bnd temps tr).1 = .ok bnd' →
      (∀ k : Int, (lookupKey k bnd).isSome = true →
        (lookupKey k bnd').isSome = true) ∧
      ∀ a ∈ allocs, (lookupKey a.index bnd').isSome = true := by
  intro allocs
  induction allocs with
  | nil =>
    intro alc bnd temps tr bnd' h
    have hb : bnd = bnd' := by simpa [bindAll] using h
    subst hb
    exact ⟨fun k hk => hk, fun a ha => absurd ha (List.not_mem_nil a)⟩
  | cons a rest ih =>
    intro alc bnd temps tr bnd' h
    unfold bindAll at h
    rcases hb : BufferForAllocation args globals oinfo a alc with er | q
    · rw [hb] at h; simp at h
    · rw [hb] at h
      obtain ⟨m, alc2, tmp, ev⟩ := q
      have hstep := ih alc2 (bnd ++ [(a.index, m)])
        (tmp.elim temps fun addr => addr :: temps) (tr ++ ev) bnd' h
      refine ⟨fun k hk => hstep.1 k (lookupKey_append_isSome_left k bnd _ hk), ?_⟩
      intro b hbmem
      rcases List.mem_cons.mp hbmem with hba | hbr
      · subst hba
        exact hstep.1 b.index (lookupKey_append_singleton_isSome b.index m bnd)
      · exact hstep.2 b hbr

theorem bindAll_error_frees (args : List ExecutionInput)
    (globals : List (Int × DeviceMemoryBase))
    (oinfo : List (List Nat × OutputInfo)) :
    ∀ (allocs : List BufferAllocation) (alc : Allocator)
      (bnd : List (Int × DeviceMemoryBase)) (temps : List Nat) (tr : List Event)
      (er : Err),
      temps = (allocAddrs tr).reverse →
      freeAddrs tr = [] →
      (bindAll args globals oinfo allocs alc bnd temps tr).1 = .error er →
      freeAddrs (bindAll args globals oinfo allocs alc bnd temps tr).2 =
        (allocAddrs (bindAll args globals oinfo allocs alc bnd temps tr).2).reverse := by
  intro allocs
  induction allocs with
  | nil =>
    intro alc bnd temps tr er ht hf h
    simp [bindAll] at h
  | cons a rest ih =>
    intro alc bnd temps tr er ht hf h
    unfold bindAll at h ⊢
    rcases hb : BufferForAllocation args globals oinfo a alc with er2 | q
    · show freeAddrs (tr ++ temps.map Event.freeCall) =
        (allocAddrs (tr ++ temps.map Event.freeCall)).reverse
      rw [freeAddrs_append, allocAddrs_append, hf, freeAddrs_map_freeCall,
        allocAddrs_map_freeCall, ht]
      simp
    · obtain ⟨m, alc2, tmp, ev⟩ := q
      rw [hb] at h
      rcases BufferForAllocation_shape hb with ⟨h1, h2⟩ | ⟨h1, h2⟩
      · subst h1; subst h2
        exact ih alc2 (bnd ++ [(a.index, m)]) temps (tr ++ []) er
          (by simpa using ht) (by simpa using hf) h
      · subst h1; subst h2
        refine ih alc2 (bnd ++ [(a.index, m)]) (m.addr :: temps)
          (tr ++ [Event.allocCall m.addr a.size]) er ?_ ?_ h
        · rw [allocAddrs_append, ht]
          simp [allocAddrs]
        · rw [freeAddrs_append, hf]
          simp [freeAddrs]

theorem mem_mustAliasParams (oinfo : List (List Nat × OutputInfo))
    (path : List Nat) (oi : OutputInfo) (p : Nat)
    (hmem : (path, oi) ∈ oinfo)
    (hal : oi.alias_config = some ⟨p, AliasKind.mustAlias⟩) :
    p ∈ mustAliasParams oinfo := by
  unfold mustAliasParams
  exact List.mem_filterMap.mpr ⟨(path, oi), hmem, by simp [hal]⟩

theorem bindAll_binds (args : List ExecutionInput)
    (globals : List (Int × DeviceMemoryBase))
    (oinfo : List (List Nat × OutputInfo))
    (a : BufferAllocation) (v : DeviceMemoryBase)
    (hbfa : ∀ alc, BufferForAllocation args globals oinfo a alc =
      .ok (v, alc, none, [])) :
    ∀ (allocs : List BufferAllocation) (alc : Allocator)
      (bnd : List (Int × DeviceMemoryBase)) (temps : List Nat) (tr : List Event)
      (bnd' : List (Int × DeviceMemoryBase)),
      a ∈ allocs →
      (allocs.map BufferAllocation.index).Nodup →
      (∀ b ∈ allocs, lookupKey b.index bnd = none) →
      (bindAll args globals oinfo allocs alc bnd temps tr).1 = .ok bnd' →
      lookupKey a.index bnd' = some v := by
  intro allocs
  induction allocs with
  | nil =>
    intro alc bnd temps tr bnd' hmem
    exact absurd hmem (List.not_mem_nil a)
  | cons c rest ih =>
    intro alc bnd temps tr bnd' hmem hnd hnone h
    unfold bindAll at h
    rcases hb : BufferForAllocation args globals oinfo c alc with er | q
    · rw [hb] at h; simp at h
    · rw [hb] at h
      obtain ⟨m, alc2, tmp, ev⟩ := q
      rcases List.mem_cons.mp hmem with hac | harest
      · subst hac
        have heq := hb.symm.trans (hbfa alc)
        simp only [Except.ok.injEq, Prod.mk.injEq] at heq
        obtain ⟨hm, _, _, _⟩ := heq
        subst hm
        have hkey : lookupKey a.index (bnd ++ [(a.index, m)]) = some m := by
          rw [lookupKey_append_none a.index bnd _ (hnone a hmem), lookupKey_cons_eq]
        obtain ⟨suf, hsuf⟩ := bindAll_extends args globals oinfo rest alc2
          (bnd ++ [(a.index, m)]) (tmp.elim temps fun addr => addr :: temps)
          (tr ++ ev) bnd' h
        rw [hsuf]
        exact lookupKey_append_left a.index m _ suf hkey
      · have hnd' : (∀ x ∈ rest, ¬x.index = c.index) ∧
            (List.map BufferAllocation.index rest).Nodup := by simpa using hnd
        refine ih alc2 (bnd ++ [(c.index, m)])
          (tmp.elim temps fun addr => addr :: temps) (tr ++ ev) bnd' harest
          hnd'.2 ?_ h
        intro b hbr
        have hbne : b.index ≠ c.index := hnd'.1 b hbr
        rw [lookupKey_append_none b.index bnd _ (hnone b (List.mem_cons_of_mem c hbr))]
        simp [lookupKey, hbne.symm]

theorem bindAll_member_error (args : List ExecutionInput)
    (globals : List (Int × DeviceMemoryBase))
    (oinfo : List (List Nat × OutputInfo)) (a : BufferAllocation)
    (hbfa : ∀ alc, BufferForAllocation args globals oinfo a alc =
      .error Err.aliasingContract) :
    ∀ (allocs : List BufferAllocation) (alc : Allocator)
      (bnd : List (Int × DeviceMemoryBase)) (temps : List Nat) (tr : List Event)
      (bnd' : List (Int × DeviceMemoryBase)),
      a ∈ allocs →
      (bindAll args globals oinfo allocs alc bnd temps tr).1 ≠ .ok bnd' := by
  intro allocs
  induction allocs with
  | nil =>
    intro alc bnd temps tr bnd' hmem
    exact absurd hmem (List.not_mem_nil a)
  | cons c rest ih =>
    intro alc bnd temps tr bnd' hmem h
    unfold bindAll at h
    rcases hb : BufferForAllocation args globals oinfo c alc with er | q
    · rw [hb] at h; simp at h
    · rw [hb] at h
      obtain ⟨m, alc2, tmp, ev⟩ := q
      rcases List.mem_cons.mp hmem with hac | harest
      · subst hac
        rw [hbfa alc] at hb
        cases hb
      · exact ih alc2 (bnd ++ [(c.index, m)])
          (tmp.elim temps fun addr => addr :: temps) (tr ++ ev) bnd' harest h

/-! Claim theorems. -/

/-- Claim C10: set_ir_module_string followed by ir_module_string returns
exactly the string that was set, and setting it changes no other
observable state of the executable: text, binary, GetAllocations,
constants, SizeOfGeneratedCodeInBytes and the program-representation
variant are all unchanged by it. -/
theorem set_ir_module_string_frame (e : GpuExecutable) (s : String) :
    (set_ir_module_string e s).ir_module_string = s ∧
    (set_ir_module_string e s).text = e.text ∧
    (set_ir_module_string e s).binary = e.binary ∧
    GetAllocations (set_ir_module_string e s) = GetAllocations e ∧
    (set_ir_module_string e s).constants = e.constants ∧
    SizeOfGeneratedCodeInBytes (set_ir_module_string e s) =
      SizeOfGeneratedCodeInBytes e ∧
    (set_ir_module_string e s).thunks_or_bef = e.thunks_or_bef :=
  ⟨rfl, rfl, rfl, rfl, rfl, rfl, rfl⟩

/-- Claim C1: when the run context's device version does not match the
compiled version, the entry point fails with the device-compatibility
error and its trace shows that no memory was touched: no allocator call
and no device launch happened in that invocation. -/
theorem execute_device_mismatch_no_memory (e : GpuExecutable) (ro : RunOptions)
    (args : List ExecutionInput) (alc : Allocator)
    (loadFn : Nat → Except Err ModuleLoad) (launchFn : Nat → Except Err Unit)
    (h : ro.gpu_version ≠ e.gpu_version) :
    (ExecuteAsyncOnStreamImpl e ro args alc loadFn launchFn).1 =
      .error Err.deviceCompatibility ∧
    ∀ ev ∈ (ExecuteAsyncOnStreamImpl e ro args alc loadFn launchFn).2.2,
      ev.isAllocCall = false ∧ ev.isLaunch = false := by
  simp [ExecuteAsyncOnStreamImpl,
    CheckCompatibilityWithServiceExecutableRunOptions, h]

theorem execute_device_mismatch_no_memory_witness :
    (ExecuteAsyncOnStreamImpl mismatchExe mismatchRo [] freeAlloc okLoad okLaunch).1 =
      .error Err.deviceCompatibility ∧
    ∀ ev ∈ (ExecuteAsyncOnStreamImpl mismatchExe mismatchRo [] freeAlloc okLoad okLaunch).2.2,
      ev.isAllocCall = false ∧ ev.isLaunch = false :=
  execute_device_mismatch_no_memory mismatchExe mismatchRo [] freeAlloc okLoad okLaunch
    (by decide)

/-- Claim C2: constant resolution is idempotent per device: when a resolve
call for a device succeeds, resolving again for the same device returns
the bit-identical allocation-index-to-address map, the second call is a
cache hit that performs no device load, and at most one load happens
across the two calls. -/
theorem ResolveConstantGlobals_idempotent (e : GpuExecutable)
    (loadFn : Nat → Except Err ModuleLoad) (dev : Nat)
    (m : List (Int × DeviceMemoryBase))
    (h : (ResolveConstantGlobals e loadFn dev).1 = .ok m) :
    (ResolveConstantGlobals (ResolveConstantGlobals e loadFn dev).2.1 loadFn dev).1 =
      .ok m ∧
    (ResolveConstantGlobals (ResolveConstantGlobals e loadFn dev).2.1 loadFn dev).2.2 =
      [] ∧
    loadCount dev ((ResolveConstantGlobals e loadFn dev).2.2 ++
      (ResolveConstantGlobals (ResolveConstantGlobals e loadFn dev).2.1 loadFn dev).2.2) ≤ 1 := by
  rcases hl : lookupKey dev e.module_globals with _ | m0
  · rcases hf : loadFn dev with er | ml
    · rw [resolve_load_error e loadFn dev er hl hf] at h; cases h
    · rcases hb : buildGlobalsMap e.constants ml.symbols with er | m1
      · rw [resolve_build_error e loadFn dev ml er hl hf hb] at h; cases h
      · rw [resolve_success e loadFn dev ml m1 hl hf hb] at h ⊢
        have hm : m1 = m := by
          simpa using h
        subst hm
        have hhit : lookupKey dev
            ({ e with
                module_handles := (dev, ml.handle) :: e.module_handles,
                module_globals := (dev, m1) :: e.module_globals } :
              GpuExecutable).module_globals = some m1 :=
          lookupKey_cons_self dev m1 e.module_globals
        rw [resolve_hit _ loadFn dev m1 hhit]
        refine ⟨rfl, rfl, ?_⟩
        simp [loadCount_append, loadCount_self]
  · rw [resolve_hit e loadFn dev m0 hl] at h ⊢
    have hm : m0 = m := by simpa using h
    subst hm
    rw [resolve_hit e loadFn dev m0 hl]
    exact ⟨rfl, rfl, by simp [loadCount]⟩

theorem ResolveConstantGlobals_idempotent_witness :
    (ResolveConstantGlobals (ResolveConstantGlobals cachedExe okLoad 0).2.1 okLoad 0).1 =
      .ok [(0, ⟨500, 4⟩)] ∧
    (ResolveConstantGlobals (ResolveConstantGlobals cachedExe okLoad 0).2.1 okLoad 0).2.2 =
      [] ∧
    loadCount 0 ((ResolveConstantGlobals cachedExe okLoad 0).2.2 ++
      (ResolveConstantGlobals (ResolveConstantGlobals cachedExe okLoad 0).2.1 okLoad 0).2.2) ≤ 1 :=
  ResolveConstantGlobals_idempotent cachedExe okLoad 0 [(0, ⟨500, 4⟩)] (by rfl)

/-- Claim C8: a constant-resolution failure for a device leaves the
per-device cache untouched, so the device has no cache entry and a later
resolve call for it retries the device load instead of returning a cached
failure; a successful resolution inserts the complete map together with
the module handle. -/
theorem resolve_failure_leaves_cache_empty (e : GpuExecutable)
    (loadFn1 loadFn2 : Nat → Except Err ModuleLoad) (dev : Nat) (er : Err)
    (m : List (Int × DeviceMemoryBase))
    (h0 : lookupKey dev e.module_globals = none)
    (h1 : (ResolveConstantGlobals e loadFn1 dev).1 = .error er)
    (h2 : (ResolveConstantGlobals e loadFn2 dev).1 = .ok m) :
    (ResolveConstantGlobals e loadFn1 dev).2.1 = e ∧
    lookupKey dev (ResolveConstantGlobals e loadFn1 dev).2.1.module_globals = none ∧
    Event.constantLoad dev ∈
      (ResolveConstantGlobals (ResolveConstantGlobals e loadFn1 dev).2.1 loadFn2 dev).2.2 ∧
    lookupKey dev (ResolveConstantGlobals e loadFn2 dev).2.1.module_globals = some m ∧
    (lookupKey dev (ResolveConstantGlobals e loadFn2 dev).2.1.module_handles).isSome = true := by
  have hstate : (ResolveConstantGlobals e loadFn1 dev).2.1 = e := by
    rcases hf : loadFn1 dev with er1 | ml
    · rw [resolve_load_error e loadFn1 dev er1 h0 hf]
    · rcases hb : buildGlobalsMap e.constants ml.symbols with er1 | m1
      · rw [resolve_build_error e loadFn1 dev ml er1 h0 hf hb]
      · rw [resolve_success e loadFn1 dev ml m1 h0 hf hb] at h1; cases h1
  have htrace2 : Event.constantLoad dev ∈
      (ResolveConstantGlobals (ResolveConstantGlobals e loadFn1 dev).2.1 loadFn2 dev).2.2 := by
    rw [hstate]
    rcases hf : loadFn2 dev with er2 | ml
    · rw [resolve_load_error e loadFn2 dev er2 h0 hf]; exact List.mem_singleton.mpr rfl
    · rcases hb : buildGlobalsMap e.constants ml.symbols with er2 | m1
      · rw [resolve_build_error e loadFn2 dev ml er2 h0 hf hb]
        exact List.mem_singleton.mpr rfl
      · rw [resolve_success e loadFn2 dev ml m1 h0 hf hb]
        exact List.mem_singleton.mpr rfl
  have hsucc : lookupKey dev (ResolveConstantGlobals e loadFn2 dev).2.1.module_globals =
      some m ∧
      (lookupKey dev (ResolveConstantGlobals e loadFn2 dev).2.1.module_handles).isSome =
        true := by
    rcases hf : loadFn2 dev with er2 | ml
    · rw [resolve_load_error e loadFn2 dev er2 h0 hf] at h2; cases h2
    · rcases hb : buildGlobalsMap e.constants ml.symbols with er2 | m1
      · rw [resolve_build_error e loadFn2 dev ml er2 h0 hf hb] at h2; cases h2
      · rw [resolve_success e loadFn2 dev ml m1 h0 hf hb] at h2 ⊢
        have hm : m1 = m := by simpa using h2
        subst hm
        exact ⟨lookupKey_cons_self dev m1 e.module_globals, by
          simp [lookupKey_cons_self]⟩
  exact ⟨hstate, by rw [hstate]; exact h0, htrace2, hsucc.1, hsucc.2⟩

/-- Claim C3: buffer binding is all-or-nothing: when the binder returns a
binding, every allocation of the table has a resolved device memory
address in it; when it returns an error, no binding is exposed, and every
temporary allocated during this bind has been released (most recent first)
before the error propagates, so the freed addresses are exactly the
allocated ones. -/
theorem GenerateBufferAllocations_all_or_nothing (args : List ExecutionInput)
    (globals : List (Int × DeviceMemoryBase))
    (oinfo : List (List Nat × OutputInfo)) (allocs : List BufferAllocation)
    (alc : Allocator) :
    (∀ bnd, (GenerateBufferAllocations args globals oinfo allocs alc).1 = .ok bnd →
      ∀ a ∈ allocs, (lookupKey a.index bnd).isSome = true) ∧
    (∀ er, (GenerateBufferAllocations args globals oinfo allocs alc).1 = .error er →
      freeAddrs (GenerateBufferAllocations args globals oinfo allocs alc).2 =
        (allocAddrs (GenerateBufferAllocations args globals oinfo allocs alc).2).reverse) := by
  constructor
  · intro bnd h
    exact (bindAll_ok_complete args globals oinfo allocs alc [] [] [] bnd h).2
  · intro er h
    exact bindAll_error_frees args globals oinfo allocs alc [] [] [] er rfl rfl h

theorem GenerateBufferAllocations_all_or_nothing_witness :
    (lookupKey tmpAlloc4.index [((0 : Int), (⟨100, 4⟩ : DeviceMemoryBase))]).isSome =
      true ∧
    freeAddrs (GenerateBufferAllocations [] [] [] [tmpAlloc4, tmpAlloc8] smallAlloc).2 =
      (allocAddrs
        (GenerateBufferAllocations [] [] [] [tmpAlloc4, tmpAlloc8] smallAlloc).2).reverse :=
  ⟨(GenerateBufferAllocations_all_or_nothing [] [] [] [tmpAlloc4] freeAlloc).1
      [((0 : Int), ⟨100, 4⟩)] (by rfl) tmpAlloc4 (by decide),
   (GenerateBufferAllocations_all_or_nothing [] [] [] [tmpAlloc4, tmpAlloc8]
      smallAlloc).2 Err.allocation (by rfl)⟩

/-- Claim C4: must-alias donation: for an output descriptor that declares
a must-alias relation to parameter p backing allocation a, if the caller
donated the input then binding resolves a to the donated input's address,
the full binding maps a's index to that address, and the assembled output
returns that address with ownership transferred from the input; if the
caller did not donate, binding fails with the fatal aliasing-contract
error and no binding is produced. -/
theorem must_alias_donation (args : List ExecutionInput)
    (globals : List (Int × DeviceMemoryBase))
    (oinfo : List (List Nat × OutputInfo)) (path : List Nat) (oi : OutputInfo)
    (p : Nat) (inp : ExecutionInput) (a : BufferAllocation)
    (hmem : (path, oi) ∈ oinfo)
    (hal : oi.alias_config = some ⟨p, AliasKind.mustAlias⟩)
    (hidx : oi.allocation_index = a.index)
    (hfind : aliasForAllocation oinfo a.index = some ⟨p, AliasKind.mustAlias⟩)
    (harg : args.get? p = some inp)
    (hnc : a.is_constant = false)
    (hp : a.is_entry_computation_parameter = true → a.parameter_number = p) :
    (inp.donated = true →
      (∀ alc, BufferForAllocation args globals oinfo a alc =
        .ok (inp.mem, alc, none, [])) ∧
      (∀ allocs alc bnd, a ∈ allocs →
        (allocs.map BufferAllocation.index).Nodup →
        (GenerateBufferAllocations args globals oinfo allocs alc).1 = .ok bnd →
        lookupKey a.index bnd = some inp.mem ∧
        ((path, ⟨inp.mem, Ownership.donatedFromInput p⟩) : List Nat × OutputBuffer) ∈
          assembleOutputs oinfo bnd args)) ∧
    (inp.donated = false →
      (∀ alc, BufferForAllocation args globals oinfo a alc =
        .error Err.aliasingContract) ∧
      (∀ allocs alc bnd, a ∈ allocs →
        (GenerateBufferAllocations args globals oinfo allocs alc).1 ≠ .ok bnd)) := by
  have hmust : p ∈ mustAliasParams oinfo := mem_mustAliasParams oinfo path oi p hmem hal
  have harg2 : args[p]? = some inp := by rw [← List.get?_eq_getElem?]; exact harg
  constructor
  · intro hd
    have hper : ∀ alc, BufferForAllocation args globals oinfo a alc =
        .ok (inp.mem, alc, none, []) := by
      intro alc
      by_cases hie : a.is_entry_computation_parameter = true
      · simp [BufferForAllocation, hnc, hie, hp hie, harg2, hd]
      · have hie2 : a.is_entry_computation_parameter = false :=
          Bool.eq_false_iff.mpr hie
        simp [BufferForAllocation, hnc, hie2, hfind, harg2, hd]
    refine ⟨hper, ?_⟩
    intro allocs alc bnd hmemA hnd hok
    have hlook : lookupKey a.index bnd = some inp.mem :=
      bindAll_binds args globals oinfo a inp.mem hper allocs alc [] [] [] bnd
        hmemA hnd (fun _ _ => rfl) hok
    refine ⟨hlook, ?_⟩
    apply List.mem_map.mpr
    refine ⟨(path, oi), hmem, ?_⟩
    simp [hidx, hlook, hal, harg2, hd]
  · intro hd
    have hper : ∀ alc, BufferForAllocation args globals oinfo a alc =
        .error Err.aliasingContract := by
      intro alc
      by_cases hie : a.is_entry_computation_parameter = true
      · simp [BufferForAllocation, hnc, hie, hp hie, harg2, hd, hmust]
      · have hie2 : a.is_entry_computation_parameter = false :=
          Bool.eq_false_iff.mpr hie
        simp [BufferForAllocation, hnc, hie2, hfind, harg2, hd]
    exact ⟨hper, fun allocs alc bnd hmemA =>
      bindAll_member_error args globals oinfo a hper allocs alc [] [] [] bnd hmemA⟩

theorem must_alias_donation_witness :
    BufferForAllocation donatedArgs [] aliasOinfo outAllocW freeAlloc =
      .ok (⟨4369, 4⟩, freeAlloc, none, []) ∧
    lookupKey outAllocW.index donatedBnd = some ⟨4369, 4⟩ ∧
    (([], ⟨⟨4369, 4⟩, Ownership.donatedFromInput 0⟩) : List Nat × OutputBuffer) ∈
      assembleOutputs aliasOinfo donatedBnd donatedArgs := by
  have h := (must_alias_donation donatedArgs [] aliasOinfo [] aliasOi 0 donatedInp
    outAllocW (by decide) rfl rfl (by rfl) rfl rfl (by decide)).1 rfl
  have h2 := h.2 [paramAllocW, outAllocW] freeAlloc donatedBnd (by decide)
    (by decide) (by rfl)
  exact ⟨h.1 freeAlloc, h2.1, h2.2⟩

theorem resolve_failure_leaves_cache_empty_witness :
    (ResolveConstantGlobals cachedExe badLoad 0).2.1 = cachedExe ∧
    lookupKey 0 (ResolveConstantGlobals cachedExe badLoad 0).2.1.module_globals = none ∧
    Event.constantLoad 0 ∈
      (ResolveConstantGlobals (ResolveConstantGlobals cachedExe badLoad 0).2.1 okLoad 0).2.2 ∧
    lookupKey 0 (ResolveConstantGlobals cachedExe okLoad 0).2.1.module_globals =
      some [(0, ⟨500, 4⟩)] ∧
    (lookupKey 0 (ResolveConstantGlobals cachedExe okLoad 0).2.1.module_handles).isSome =
      true :=
  resolve_failure_leaves_cache_empty cachedExe badLoad okLoad 0
    Err.constantResolution [(0, ⟨500, 4⟩)] (by rfl) (by rfl) (by rfl)

theorem resolve_trace_cases (e : GpuExecutable) (f : Nat → Except Err ModuleLoad)
    (d : Nat) :
    (ResolveConstantGlobals e f d).2.2 = [] ∨
    (ResolveConstantGlobals e f d).2.2 = [Event.constantLoad d] := by
  rcases h : lookupKey d e.module_globals with _ | m
  · rcases hf : f d with er | ml
    · rw [resolve_load_error e f d er h hf]; right; rfl
    · rcases hb : buildGlobalsMap e.constants ml.symbols with er | m2
      · rw [resolve_build_error e f d ml er h hf hb]; right; rfl
      · rw [resolve_success e f d ml m2 h hf hb]; right; rfl
  · rw [resolve_hit e f d m h]; left; rfl

theorem launchedUnits_append (l1 l2 : List Event) :
    launchedUnits (l1 ++ l2) = launchedUnits l1 ++ launchedUnits l2 := by
  simp [launchedUnits, List.filterMap_append]

theorem launchesOnStream_append (s : Nat) (l1 l2 : List Event) :
    launchesOnStream s (l1 ++ l2) =
      launchesOnStream s l1 ++ launchesOnStream s l2 := by
  simp [launchesOnStream, List.filterMap_append]

theorem thunkWaits_mem_shape (sched : List Thunk) (t : Thunk) (ev : Event)
    (h : ev ∈ thunkWaits sched t) : ∃ d, ev = Event.streamWait d t.stream := by
  unfold thunkWaits at h
  obtain ⟨d, _, hg⟩ := List.mem_filterMap.mp h
  rcases hf : sched.find? (fun u => u.id == d) with _ | u
  · rw [hf] at hg; cases hg
  · rw [hf] at hg
    by_cases hs : u.stream = t.stream
    · simp [hs] at hg
    · simp [hs] at hg
      exact ⟨d, hg.symm⟩

theorem launchedUnits_thunkWaits (sched : List Thunk) (t : Thunk) :
    launchedUnits (thunkWaits sched t) = [] := by
  apply List.filterMap_eq_nil.mpr
  intro ev hev
  obtain ⟨d, hd⟩ := thunkWaits_mem_shape sched t ev hev
  subst hd; rfl

theorem launchesOnStream_thunkWaits (s : Nat) (sched : List Thunk) (t : Thunk) :
    launchesOnStream s (thunkWaits sched t) = [] := by
  apply List.filterMap_eq_nil.mpr
  intro ev hev
  obtain ⟨d, hd⟩ := thunkWaits_mem_shape sched t ev hev
  subst hd; rfl

theorem hostBlock_not_mem_thunkWaits (sched : List Thunk) (t : Thunk) :
    Event.hostBlock ∉ thunkWaits sched t := by
  intro h
  obtain ⟨d, hd⟩ := thunkWaits_mem_shape sched t _ h
  cases hd

theorem runThunks_ok (sched : List Thunk) (launchFn : Nat → Except Err Unit) :
    ∀ rest, (∀ u ∈ rest, launchFn u.id = .ok ()) →
      runThunks sched launchFn rest = (.ok (), scheduleTrace sched rest) := by
  intro rest
  induction rest with
  | nil => intro _; rfl
  | cons t ts ih =>
    intro h
    have ht := h t (List.mem_cons_self t ts)
    have hts := ih (fun u hu => h u (List.mem_cons_of_mem t hu))
    simp only [runThunks, ht, hts, scheduleTrace, thunkBlock, List.append_assoc,
      List.singleton_append]

theorem runThunks_error (sched : List Thunk) (launchFn : Nat → Except Err Unit)
    (er : Err) :
    ∀ (pre : List Thunk) (t : Thunk) (post : List Thunk),
      (∀ u ∈ pre, launchFn u.id = .ok ()) → launchFn t.id = .error er →
      runThunks sched launchFn (pre ++ t :: post) =
        (.error er, scheduleTrace sched pre ++ thunkWaits sched t ++
          [Event.launch t.id t.stream]) := by
  intro pre
  induction pre with
  | nil =>
    intro t post _ ht
    simp only [List.nil_append, runThunks, ht, scheduleTrace, List.append_assoc]
  | cons c cs ih =>
    intro t post hpre ht
    have hc := hpre c (List.mem_cons_self c cs)
    have hih := ih t post (fun u hu => hpre u (List.mem_cons_of_mem c hu)) ht
    show runThunks sched launchFn (c :: (cs ++ t :: post)) = _
    simp only [runThunks, hc, List.append_eq]
    rw [hih]
    simp [scheduleTrace, thunkBlock, List.append_assoc]

theorem launchedUnits_scheduleTrace (sched : List Thunk) :
    ∀ l, launchedUnits (scheduleTrace sched l) = l.map Thunk.id := by
  intro l
  induction l with
  | nil => rfl
  | cons u us ih =>
    show launchedUnits (thunkBlock sched u ++ scheduleTrace sched us) = _
    rw [launchedUnits_append]
    unfold thunkBlock
    rw [launchedUnits_append, launchedUnits_thunkWaits, ih]
    rfl

theorem hostBlock_not_mem_scheduleTrace (sched : List Thunk) :
    ∀ l, Event.hostBlock ∉ scheduleTrace sched l := by
  intro l
  induction l with
  | nil => exact List.not_mem_nil _
  | cons u us ih =>
    intro h
    rcases List.mem_append.mp h with h1 | h2
    · rcases List.mem_append.mp h1 with h3 | h4
      · exact hostBlock_not_mem_thunkWaits sched u h3
      · exact Event.noConfusion (List.mem_singleton.mp h4)
    · exact ih h2

theorem launchesOnStream_scheduleTrace (sched : List Thunk) (s : Nat) :
    ∀ l, launchesOnStream s (scheduleTrace sched l) =
      (l.filter (fun u => u.stream == s)).map Thunk.id := by
  intro l
  induction l with
  | nil => rfl
  | cons u us ih =>
    show launchesOnStream s (thunkBlock sched u ++ scheduleTrace sched us) = _
    rw [launchesOnStream_append]
    unfold thunkBlock
    rw [launchesOnStream_append, launchesOnStream_thunkWaits, ih]
    by_cases hs : u.stream = s
    · simp [List.filter_cons, hs, launchesOnStream]
    · simp [List.filter_cons, hs, launchesOnStream]

theorem scheduleTrace_append (sched : List Thunk) (l1 l2 : List Thunk) :
    scheduleTrace sched (l1 ++ l2) =
      scheduleTrace sched l1 ++ scheduleTrace sched l2 := by
  induction l1 with
  | nil => rfl
  | cons u us ih =>
    show thunkBlock sched u ++ scheduleTrace sched (us ++ l2) = _
    rw [ih]
    simp [scheduleTrace, List.append_assoc]

theorem find?_id_eq (sched : List Thunk) (x : Thunk) (hx : x ∈ sched)
    (hnd : (sched.map Thunk.id).Nodup) :
    sched.find? (fun u => u.id == x.id) = some x := by
  induction sched with
  | nil => cases hx
  | cons c rest ih =>
    have hnd2 : (∀ y ∈ rest, ¬y.id = c.id) ∧ (rest.map Thunk.id).Nodup := by
      simpa using hnd
    rcases List.mem_cons.mp hx with hxc | hxr
    · subst hxc
      simp [List.find?]
    · have hne : (c.id == x.id) = false :=
        beq_eq_false_iff_ne.mpr (fun hcontra => hnd2.1 x hxr hcontra.symm)
      rw [List.find?_cons, hne]
      exact ih hxr hnd2.2

theorem streamWait_mem_thunkWaits (sched : List Thunk) (x y : Thunk)
    (hx : x ∈ sched) (hnd : (sched.map Thunk.id).Nodup)
    (hdep : x.id ∈ y.deps) (hs : x.stream ≠ y.stream) :
    Event.streamWait x.id y.stream ∈ thunkWaits sched y := by
  unfold thunkWaits
  apply List.mem_filterMap.mpr
  refine ⟨x.id, hdep, ?_⟩
  rw [find?_id_eq sched x hx hnd]
  show (if x.stream = y.stream then none
    else some (Event.streamWait x.id y.stream)) =
      some (Event.streamWait x.id y.stream)
  rw [if_neg hs]

theorem executeImpl_state (e : GpuExecutable) (ro : RunOptions)
    (args : List ExecutionInput) (alc : Allocator)
    (loadFn : Nat → Except Err ModuleLoad) (launchFn : Nat → Except Err Unit) :
    (ExecuteAsyncOnStreamImpl e ro args alc loadFn launchFn).2.1 = e ∨
    (ExecuteAsyncOnStreamImpl e ro args alc loadFn launchFn).2.1 =
      (ResolveConstantGlobals e loadFn ro.device_ordinal).2.1 := by
  unfold ExecuteAsyncOnStreamImpl
  split
  · left; rfl
  · split
    · next er e2 tr1 heq => right; rw [heq]
    · next globals e2 tr1 heq =>
      split
      · right; rw [heq]
      · split
        · right; rw [heq]
        · right; rw [heq]

theorem executeImpl_ok_run (e : GpuExecutable) (ro : RunOptions)
    (args : List ExecutionInput) (alc : Allocator)
    (loadFn : Nat → Except Err ModuleLoad) (launchFn : Nat → Except Err Unit)
    (out : ExecutionOutput)
    (h : (ExecuteAsyncOnStreamImpl e ro args alc loadFn launchFn).1 = .ok out) :
    ∃ uu, (runProgram
      (ResolveConstantGlobals e loadFn ro.device_ordinal).2.1.thunks_or_bef
        launchFn).1 = .ok uu := by
  unfold ExecuteAsyncOnStreamImpl at h
  split at h
  · simp at h
  · split at h
    · simp at h
    · next globals e2 tr1 heq =>
      split at h
      · simp at h
      · split at h
        · simp at h
        · next uu tr3 hrp =>
          refine ⟨uu, ?_⟩
          have he2 : (ResolveConstantGlobals e loadFn ro.device_ordinal).2.1 = e2 := by
            rw [heq]
          rw [he2, hrp]

/-- Claim C5: a device error reported by a unit's launch stops issuance
immediately: exactly the units up to and including the failing one are
launched, the unit-schedule run returns that error as its result, and an
invocation whose program representation is that schedule never returns an
output to the caller. -/
theorem launch_error_stops_issuance (pre : List Thunk) (t : Thunk)
    (post : List Thunk) (launchFn : Nat → Except Err Unit) (er : Err)
    (hpre : ∀ u ∈ pre, launchFn u.id = .ok ())
    (ht : launchFn t.id = .error er) :
    (ExecuteThunks (pre ++ t :: post) launchFn).1 = .error er ∧
    launchedUnits (ExecuteThunks (pre ++ t :: post) launchFn).2 =
      (pre ++ [t]).map Thunk.id ∧
    ∀ (e : GpuExecutable) (ro : RunOptions) (args : List ExecutionInput)
      (alc : Allocator) (loadFn : Nat → Except Err ModuleLoad)
      (out : ExecutionOutput),
      e.thunks_or_bef = ThunksOrBef.thunks (pre ++ t :: post) →
      (ExecuteAsyncOnStreamImpl e ro args alc loadFn launchFn).1 ≠ .ok out := by
  have hrun := runThunks_error (pre ++ t :: post) launchFn er pre t post hpre ht
  have h1 : (ExecuteThunks (pre ++ t :: post) launchFn).1 = .error er := by
    unfold ExecuteThunks
    rw [hrun]
  refine ⟨h1, ?_, ?_⟩
  · unfold ExecuteThunks
    rw [hrun]
    show launchedUnits (scheduleTrace (pre ++ t :: post) pre ++
      thunkWaits (pre ++ t :: post) t ++ [Event.launch t.id t.stream]) = _
    rw [launchedUnits_append, launchedUnits_append, launchedUnits_thunkWaits,
      launchedUnits_scheduleTrace]
    simp [launchedUnits]
  · intro e ro args alc loadFn out htb hok
    obtain ⟨uu, hrun2⟩ := executeImpl_ok_run e ro args alc loadFn launchFn out hok
    rw [(resolve_fields e loadFn ro.device_ordinal).1, htb] at hrun2
    have hex : (ExecuteThunks (pre ++ t :: post) launchFn).1 = .ok uu := hrun2
    rw [h1] at hex
    cases hex

theorem launch_error_stops_issuance_witness :
    (ExecuteThunks ([thunkX] ++ failThunk :: [postThunk]) failLaunch).1 =
      .error (Err.launchFailure 2) ∧
    launchedUnits (ExecuteThunks ([thunkX] ++ failThunk :: [postThunk]) failLaunch).2 =
      ([thunkX] ++ [failThunk]).map Thunk.id ∧
    (ExecuteAsyncOnStreamImpl failExe matchRo [] freeAlloc okLoad failLaunch).1 ≠
      .ok [] := by
  have h := launch_error_stops_issuance [thunkX] failThunk [postThunk] failLaunch
    (Err.launchFailure 2)
    (by intro u hu; rw [List.mem_singleton.mp hu]; rfl) rfl
  exact ⟨h.1, h.2.1, h.2.2 failExe matchRo [] freeAlloc okLoad [] rfl⟩

/-- Claim C6: cross-stream ordering in the unit-schedule variant: when
every launch succeeds, a unit with a producer on a different stream
launches only after an explicit stream-wait referencing that producer
appears in the trace; no host-side blocking happens during issuance; and
the launches on each stream follow the schedule's (topological) order
restricted to that stream's units. -/
theorem cross_stream_ordering (sched : List Thunk)
    (launchFn : Nat → Except Err Unit)
    (hok : ∀ u ∈ sched, launchFn u.id = .ok ())
    (hnd : (sched.map Thunk.id).Nodup) :
    (∀ x y, x ∈ sched → y ∈ sched → x.id ∈ y.deps → x.stream ≠ y.stream →
      ∃ t1 t2 t3, (ExecuteThunks sched launchFn).2 =
        t1 ++ [Event.streamWait x.id y.stream] ++ t2 ++
          [Event.launch y.id y.stream] ++ t3) ∧
    Event.hostBlock ∉ (ExecuteThunks sched launchFn).2 ∧
    (∀ s, launchesOnStream s (ExecuteThunks sched launchFn).2 =
      (sched.filter (fun u => u.stream == s)).map Thunk.id) := by
  have htr : (ExecuteThunks sched launchFn).2 = scheduleTrace sched sched := by
    unfold ExecuteThunks
    rw [runThunks_ok sched launchFn sched hok]
  refine ⟨?_, ?_, ?_⟩
  · intro x y hx hy hdep hs
    obtain ⟨l1, l2, hsched⟩ := List.append_of_mem hy
    subst hsched
    obtain ⟨w1, w2, hw⟩ := List.append_of_mem
      (streamWait_mem_thunkWaits (l1 ++ y :: l2) x y hx hnd hdep hs)
    refine ⟨scheduleTrace (l1 ++ y :: l2) l1 ++ w1, w2,
      scheduleTrace (l1 ++ y :: l2) l2, ?_⟩
    rw [htr, scheduleTrace_append]
    show scheduleTrace (l1 ++ y :: l2) l1 ++
      (thunkBlock (l1 ++ y :: l2) y ++ scheduleTrace (l1 ++ y :: l2) l2) = _
    unfold thunkBlock
    rw [hw]
    simp [List.append_assoc]
  · rw [htr]
    exact hostBlock_not_mem_scheduleTrace sched sched
  · intro s
    rw [htr]
    exact launchesOnStream_scheduleTrace sched s sched

theorem cross_stream_ordering_witness :
    (∃ t1 t2 t3, (ExecuteThunks [thunkX, thunkY] okLaunch).2 =
      t1 ++ [Event.streamWait thunkX.id thunkY.stream] ++ t2 ++
        [Event.launch thunkY.id thunkY.stream] ++ t3) ∧
    Event.hostBlock ∉ (ExecuteThunks [thunkX, thunkY] okLaunch).2 ∧
    launchesOnStream 0 (ExecuteThunks [thunkX, thunkY] okLaunch).2 =
      (([thunkX, thunkY].filter (fun u => u.stream == 0)).map Thunk.id) := by
  have h := cross_stream_ordering [thunkX, thunkY] okLaunch (fun _ _ => rfl)
    (by decide)
  exact ⟨h.1 thunkX thunkY (by decide) (by decide) (by decide) (by decide),
    h.2.1, h.2.2 0⟩

/-- Claim C7: the program representation is a closed two-variant sum fixed
at construction: every representation value is exactly one of a thunk
schedule or a whole-program BEF blob, never both and never neither; the
Program Runner is the single branch point, dispatching thunk schedules to
the unit-schedule run and BEF blobs to the whole-program launch; and an
invocation never changes the variant the executable holds. -/
theorem program_representation_closed_variant :
    (∀ tb : ThunksOrBef,
      ((∃ sched, tb = ThunksOrBef.thunks sched) ∧ ¬∃ bf, tb = ThunksOrBef.bef bf) ∨
      ((∃ bf, tb = ThunksOrBef.bef bf) ∧ ¬∃ sched, tb = ThunksOrBef.thunks sched)) ∧
    (∀ (sched : List Thunk) (launchFn : Nat → Except Err Unit),
      runProgram (ThunksOrBef.thunks sched) launchFn = ExecuteThunks sched launchFn) ∧
    (∀ (bf : List Nat) (launchFn : Nat → Except Err Unit),
      runProgram (ThunksOrBef.bef bf) launchFn = launchBef bf launchFn) ∧
    (∀ (e : GpuExecutable) (ro : RunOptions) (args : List ExecutionInput)
      (alc : Allocator) (loadFn : Nat → Except Err ModuleLoad)
      (launchFn : Nat → Except Err Unit),
      (ExecuteAsyncOnStreamImpl e ro args alc loadFn launchFn).2.1.thunks_or_bef =
        e.thunks_or_bef) := by
  refine ⟨?_, fun _ _ => rfl, fun _ _ => rfl, ?_⟩
  · intro tb
    cases tb with
    | thunks sched =>
      exact Or.inl ⟨⟨sched, rfl⟩, by rintro ⟨bf, hbf⟩; cases hbf⟩
    | bef bf =>
      exact Or.inr ⟨⟨bf, rfl⟩, by rintro ⟨sched, hs⟩; cases hs⟩
  · intro e ro args alc loadFn launchFn
    rcases executeImpl_state e ro args alc loadFn launchFn with hst | hst
    · rw [hst]
    · rw [hst, (resolve_fields e loadFn ro.device_ordinal).1]

theorem resolveSeq_cons (loadFn : Nat → Except Err ModuleLoad) (d2 : Nat)
    (rest : List Nat) (e : GpuExecutable) :
    resolveSeq loadFn (d2 :: rest) e =
      ((resolveSeq loadFn rest (ResolveConstantGlobals e loadFn d2).2.1).1,
       (ResolveConstantGlobals e loadFn d2).2.2 ++
         (resolveSeq loadFn rest (ResolveConstantGlobals e loadFn d2).2.1).2) := rfl

theorem resolveSeq_load_bound (loadFn : Nat → Except Err ModuleLoad) (d : Nat)
    (cs : List ConstantInfo) (ml : ModuleLoad) (m : List (Int × DeviceMemoryBase))
    (hld : loadFn d = .ok ml) (hbg : buildGlobalsMap cs ml.symbols = .ok m) :
    ∀ (ds : List Nat) (e : GpuExecutable), e.constants = cs →
      ((lookupKey d e.module_globals).isSome = true →
        loadCount d (resolveSeq loadFn ds e).2 = 0) ∧
      loadCount d (resolveSeq loadFn ds e).2 ≤ 1 := by
  intro ds
  induction ds with
  | nil => intro e _; exact ⟨fun _ => rfl, by simp [resolveSeq, loadCount]⟩
  | cons d2 rest ih =>
    intro e hc
    by_cases hd2 : d2 = d
    · subst hd2
      rcases hl : lookupKey d2 e.module_globals with _ | m0
      · have hbg2 : buildGlobalsMap e.constants ml.symbols = .ok m := by
          rw [hc]; exact hbg
        have hstep := resolve_success e loadFn d2 ml m hl hld hbg2
        have hnext := ih { e with
            module_handles := (d2, ml.handle) :: e.module_handles,
            module_globals := (d2, m) :: e.module_globals } hc
        have hrest0 : loadCount d2 (resolveSeq loadFn rest { e with
            module_handles := (d2, ml.handle) :: e.module_handles,
            module_globals := (d2, m) :: e.module_globals }).2 = 0 := by
          apply hnext.1
          show (lookupKey d2 ((d2, m) :: e.module_globals)).isSome = true
          rw [lookupKey_cons_eq]
          rfl
        constructor
        · intro habs
          simp at habs
        · rw [resolveSeq_cons, hstep]
          show loadCount d2 ([Event.constantLoad d2] ++ _) ≤ 1
          rw [loadCount_append, loadCount_self, hrest0]
      · have hstep := resolve_hit e loadFn d2 m0 hl
        have hnext := ih e hc
        have hrest0 : loadCount d2 (resolveSeq loadFn rest e).2 = 0 := by
          apply hnext.1
          rw [hl]
          rfl
        constructor
        · intro _
          rw [resolveSeq_cons, hstep]
          show loadCount d2 ([] ++ (resolveSeq loadFn rest e).2) = 0
          rw [loadCount_append, hrest0]
          rfl
        · rw [resolveSeq_cons, hstep]
          show loadCount d2 ([] ++ (resolveSeq loadFn rest e).2) ≤ 1
          rw [loadCount_append, hrest0]
          simp [loadCount]
    · have hcs2 : (ResolveConstantGlobals e loadFn d2).2.1.constants = cs :=
        ((resolve_fields e loadFn d2).2.1).trans hc
      have hlk : lookupKey d (ResolveConstantGlobals e loadFn d2).2.1.module_globals =
          lookupKey d e.module_globals := resolve_lookup_other e loadFn d2 d hd2
      have hstep0 : loadCount d (ResolveConstantGlobals e loadFn d2).2.2 = 0 := by
        rcases resolve_trace_cases e loadFn d2 with hcase | hcase
        · rw [hcase]; rfl
        · rw [hcase]; exact loadCount_other d d2 hd2
      have hnext := ih (ResolveConstantGlobals e loadFn d2).2.1 hcs2
      constructor
      · intro hsome
        rw [resolveSeq_cons, loadCount_append, hstep0]
        have := hnext.1 (by rw [hlk]; exact hsome)
        rw [this]
      · rw [resolveSeq_cons, loadCount_append, hstep0]
        simpa using hnext.2

/-- Claim C9: modelled under the serialization the module-handle lock
enforces (the lock spans the whole lookup-or-insert, so concurrent resolve
critical sections execute one after another in some order): for a device
whose load succeeds, every serialization of concurrent resolve calls
performs at most one device load for that device — the first miss loads
and inserts, every later call reads the cache — and resolve calls for
different devices are independent: a resolve for one device does not
change the result of a resolve for another. -/
theorem concurrent_resolve_serializes_safely (e : GpuExecutable)
    (loadFn : Nat → Except Err ModuleLoad) (d d2 : Nat) (ml : ModuleLoad)
    (m : List (Int × DeviceMemoryBase))
    (hld : loadFn d = .ok ml)
    (hbg : buildGlobalsMap e.constants ml.symbols = .ok m)
    (hne : d2 ≠ d) :
    (∀ ds : List Nat, loadCount d (resolveSeq loadFn ds e).2 ≤ 1) ∧
    (ResolveConstantGlobals (ResolveConstantGlobals e loadFn d2).2.1 loadFn d).1 =
      (ResolveConstantGlobals e loadFn d).1 := by
  constructor
  · intro ds
    exact (resolveSeq_load_bound loadFn d e.constants ml m hld hbg ds e rfl).2
  · have hlk : lookupKey d (ResolveConstantGlobals e loadFn d2).2.1.module_globals =
        lookupKey d e.module_globals := resolve_lookup_other e loadFn d2 d hne
    have hcs : (ResolveConstantGlobals e loadFn d2).2.1.constants = e.constants :=
      (resolve_fields e loadFn d2).2.1
    rcases hl : lookupKey d e.module_globals with _ | m0
    · have h1 := resolve_success e loadFn d ml m hl hld hbg
      have h2 := resolve_success (ResolveConstantGlobals e loadFn d2).2.1 loadFn d
        ml m (hlk.trans hl) hld (by rw [hcs]; exact hbg)
      rw [h1, h2]
    · have h1 := resolve_hit e loadFn d m0 hl
      have h2 := resolve_hit (ResolveConstantGlobals e loadFn d2).2.1 loadFn d m0
        (hlk.trans hl)
      rw [h1, h2]

theorem concurrent_resolve_serializes_safely_witness :
    loadCount 0 (resolveSeq okLoad [0, 1, 0] cachedExe).2 ≤ 1 ∧
    (ResolveConstantGlobals (ResolveConstantGlobals cachedExe okLoad 1).2.1 okLoad 0).1 =
      (ResolveConstantGlobals cachedExe okLoad 0).1 := by
  have h := concurrent_resolve_serializes_safely cachedExe okLoad 0 1
    { handle := 1, symbols := [("sym0", 500)] } [(0, ⟨500, 4⟩)] rfl rfl (by decide)
  exact ⟨h.1 [0, 1, 0], h.2⟩

end XlaGpu
